import Mathlib

/-!
Verification development for the camera → VLM → Ditto asset-management
pipeline.  The repository sources contain the browser dashboard
(`src/ui`, `src/unnamed/part_000`, `src/unnamed/part_001`) and the README
descriptions of the backend core (`src/unnamed/part_002`,
`src/application/camera_vlm_ditto/Readme.md`); the backend core itself
(distance evaluator, proximity matcher, classifier adapter, reconciliation
engine, twin state writer) is not part of the sources, so it is modelled
here from the specification.  The `DittoPage.handleLoad` handler is
embedded directly from `src/unnamed/part_001`.
-/

namespace Ditto

/-- Modelled from the spec: CaptureRecord (§3), one row per tracked physical
location per camera; the backing store implementation is not in the
repository sources. -/
structure CaptureRecord where
  id : Nat
  camera_id : String
  lat : ℤ
  lon : ℤ
  captured_at : Nat
  processed : Bool
  changed : Bool
  reason : String
  caption : String
  deriving DecidableEq, Repr

/-- Modelled from the spec: the denormalized lastCapture snapshot (§3). -/
structure Snapshot where
  imageBytes : List Nat
  captured_at : Nat
  lat : ℤ
  lon : ℤ
  deriving DecidableEq, Repr

/-- Modelled from the spec: the detections block of a TwinDocument (§3). -/
structure Detections where
  objects : List String
  prev : Option Snapshot
  changed_since_previous : Bool
  change_reason : String
  caption : String
  deriving DecidableEq, Repr

/-- Modelled from the spec: TwinDocument (§3), one document per
CaptureRecord, addressed by the record id. -/
structure TwinDocument where
  id : Nat
  camera_id : String
  lastCapture : Snapshot
  history : List Snapshot
  detections : Detections
  deriving DecidableEq, Repr

/-- Modelled from the spec: the two external stores (§6) as in-memory lists,
plus the next record id the persistent store would assign. -/
structure SysState where
  records : List CaptureRecord
  twins : List TwinDocument
  nextId : Nat
  deriving DecidableEq, Repr

/-- Modelled from the spec: one upload event (§2, §6). -/
structure Upload where
  camera_id : String
  lat : ℤ
  lon : ℤ
  captured_at : Nat
  imageBytes : List Nat
  deriving DecidableEq, Repr

/-- Modelled from the spec: `withinRadius(d, radiusMeters)` is `d ≤ radiusMeters`
(§4.1). -/
def withinRadius (d radiusMeters : ℤ) : Bool :=
  decide (d ≤ radiusMeters)

/-- Modelled from the spec: the within-radius same-camera records the
Proximity Matcher retains (§4.2).  The Distance Evaluator is passed in as a
narrow interface (`dist`), per the abstraction note in §9. -/
def candidates (dist : ℤ → ℤ → ℤ → ℤ → ℤ) (records : List CaptureRecord)
    (camera : String) (lat lon radius : ℤ) : List CaptureRecord :=
  records.filter (fun r => r.camera_id == camera && withinRadius (dist lat lon r.lat r.lon) radius)

/-- Modelled from the spec: selection of the minimum-distance record, ties
broken by lowest record id (§4.2). -/
def pickNearest (d : CaptureRecord → ℤ) : List CaptureRecord → Option CaptureRecord
  | [] => none
  | r :: rs =>
    match pickNearest d rs with
    | none => some r
    | some b => if d r < d b ∨ (d r = d b ∧ r.id < b.id) then some r else some b

/-- Modelled from the spec: `findNearest(camera_id, lat, lon, radiusMeters)`
(§4.2); read-only by construction (it returns a value and no store). -/
def findNearest (dist : ℤ → ℤ → ℤ → ℤ → ℤ) (records : List CaptureRecord)
    (camera : String) (lat lon radius : ℤ) : Option CaptureRecord :=
  pickNearest (fun r => dist lat lon r.lat r.lon) (candidates dist records camera lat lon radius)

/-- Modelled from the spec: the normalized classifier payload (§4.3, §6). -/
structure ClassificationResult where
  majorChange : Bool
  reason : String
  caption : String
  objects : List String
  deriving DecidableEq, Repr

/-- Modelled from the spec: what the Change Classifier Adapter hands to the
engine — the payload, the processed flag (§7: false exactly when the external
capability failed) and whether the external capability was invoked. -/
structure ClassifyOut where
  result : ClassificationResult
  processed : Bool
  usedCapability : Bool
  deriving DecidableEq, Repr

/-- Modelled from the spec: `classify(candidateImage, priorImage,
priorDetections)` (§4.3).  The external capability is an oracle argument
(`none` = unreachable / timeout / malformed).  Byte-identical images
short-circuit to `majorChange = false` without invoking the capability;
capability failure degrades to `majorChange = false` with `processed = false`
(§7). -/
def classify (candidate : List Nat) (prior : Option (List Nat))
    (priorObjects : List String) (oracle : Option ClassificationResult) : ClassifyOut :=
  if prior = some candidate then
    { result := { majorChange := false, reason := "", caption := "", objects := priorObjects },
      processed := true, usedCapability := false }
  else
    match oracle with
    | some res => { result := res, processed := true, usedCapability := true }
    | none =>
      { result := { majorChange := false, reason := "", caption := "", objects := [] },
        processed := false, usedCapability := true }

/-- Modelled from the spec: ReconciliationDecision (§3), a tagged variant
over CreateNew / OverwriteWithChange / OverwriteNoChange. -/
inductive Decision where
  | createNew : Decision
  | overwriteWithChange : Nat → Decision
  | overwriteNoChange : Nat → Decision
  deriving DecidableEq, Repr

/-- Modelled from the spec: the three-rule decision table of the
Reconciliation Engine (§4.4), pure given the nearest candidate and the
classifier verdict. -/
def decideOutcome : Option CaptureRecord → Bool → Decision
  | some r, true => .overwriteWithChange r.id
  | some r, false => .overwriteNoChange r.id
  | none, _ => .createNew

/-- Modelled from the spec: the error taxonomy surfaced to callers (§7);
`ConcurrencyTimeout` concerns the lock runtime and has no counterpart in this
sequential embedding. -/
inductive IngestError where
  | geometryInvalid : IngestError
  | storeWriteFailed : IngestError
  deriving DecidableEq, Repr

/-- Modelled from the spec: success payload of `ingest` (§6). -/
structure IngestOk where
  decision : Decision
  record_id : Nat
  changed : Bool
  reason : String
  deriving DecidableEq, Repr

/-- Modelled from the spec: observable outcome of one upload — the state of
both stores after it, the result surfaced to the caller, and whether the
external classification capability was invoked. -/
structure IngestTrace where
  post : SysState
  res : Except IngestError IngestOk
  usedCapability : Bool
  deriving Repr

/-- Modelled from the spec: geometry validation (§7), degrees in range. -/
def validGeometry (lat lon : ℤ) : Bool :=
  decide (-90 ≤ lat ∧ lat ≤ 90 ∧ -180 ≤ lon ∧ lon ≤ 180)

/-- Modelled from the spec: the snapshot the writer derives from an upload
(§3, §4.5). -/
def mkSnapshot (up : Upload) : Snapshot :=
  { imageBytes := up.imageBytes, captured_at := up.captured_at, lat := up.lat, lon := up.lon }

/-- Modelled from the spec: twin lookup by record id (§6, get-by-id). -/
def twinFor (st : SysState) (id : Nat) : Option TwinDocument :=
  st.twins.find? (fun t => t.id == id)

/-- Modelled from the spec: in-place CaptureRecord overwrite (§3, §4.5) —
coordinates, timestamp, caption, reason and flags change, identity and
camera do not. -/
def overwriteRecord (up : Upload) (c : ClassifyOut) (changedFlag : Bool)
    (r : CaptureRecord) : CaptureRecord :=
  { r with lat := up.lat, lon := up.lon, captured_at := up.captured_at,
           caption := c.result.caption, reason := c.result.reason,
           changed := changedFlag, processed := c.processed }

/-- Modelled from the spec: TwinDocument mutation on overwrite (§4.5) —
previous lastCapture moves into detections.prev, the new snapshot is
appended to history and becomes lastCapture. -/
def overwriteTwin (up : Upload) (c : ClassifyOut) (changedFlag : Bool)
    (t : TwinDocument) : TwinDocument :=
  let snap := mkSnapshot up
  { t with lastCapture := snap,
           history := t.history ++ [snap],
           detections := { objects := c.result.objects, prev := some t.lastCapture,
                           changed_since_previous := changedFlag,
                           change_reason := c.result.reason, caption := c.result.caption } }

/-- Modelled from the spec: the CaptureRecord inserted by CreateNew (§4.5) —
processed true, changed false, empty reason, classifier caption. -/
def newRecordFor (st : SysState) (up : Upload) (c : ClassifyOut) : CaptureRecord :=
  { id := st.nextId, camera_id := up.camera_id, lat := up.lat, lon := up.lon,
    captured_at := up.captured_at, processed := true, changed := false,
    reason := "", caption := c.result.caption }

/-- Modelled from the spec: the TwinDocument created by CreateNew (§4.5) —
history starts with the new snapshot, no previous detections. -/
def newTwinFor (st : SysState) (up : Upload) (c : ClassifyOut) : TwinDocument :=
  { id := st.nextId, camera_id := up.camera_id, lastCapture := mkSnapshot up,
    history := [mkSnapshot up],
    detections := { objects := c.result.objects, prev := none,
                    changed_since_previous := false, change_reason := "",
                    caption := c.result.caption } }

/-- Modelled from the spec: store pair after a CreateNew write (§4.5). -/
def createState (st : SysState) (up : Upload) (c : ClassifyOut) : SysState :=
  { records := st.records ++ [newRecordFor st up c],
    twins := st.twins ++ [newTwinFor st up c],
    nextId := st.nextId + 1 }

/-- Modelled from the spec: store pair after overwriting record `i` in place
and appending to its twin's history (§4.5). -/
def overwriteState (st : SysState) (i : Nat) (up : Upload) (c : ClassifyOut)
    (flag : Bool) : SysState :=
  { st with
      records := st.records.map (fun r => if r.id = i then overwriteRecord up c flag r else r),
      twins := st.twins.map (fun t => if t.id = i then overwriteTwin up c flag t else t) }

/-- Modelled from the spec: the Twin State Writer `apply` (§4.5).  Record
write and twin mutation form a single logical unit: if either store write
fails the upload aborts with `StoreWriteFailed` and neither store changes
(§7). -/
def applyDecision (st : SysState) (d : Decision) (up : Upload) (c : ClassifyOut)
    (recordWriteOk twinWriteOk : Bool) : SysState × Except IngestError IngestOk :=
  if recordWriteOk && twinWriteOk then
    match d with
    | .createNew =>
      (createState st up c,
       .ok { decision := d, record_id := st.nextId, changed := false, reason := "" })
    | .overwriteWithChange i =>
      (overwriteState st i up c true,
       .ok { decision := d, record_id := i, changed := true, reason := c.result.reason })
    | .overwriteNoChange i =>
      (overwriteState st i up c false,
       .ok { decision := d, record_id := i, changed := false, reason := c.result.reason })
  else (st, .error .storeWriteFailed)

/-- Modelled from the spec: the classifier payload used on the CreateNew
path, where no candidate exists and the capability is never invoked (§2,
§4.4, §4.5 — caption and objects empty). -/
def defaultClassify : ClassifyOut :=
  { result := { majorChange := false, reason := "", caption := "", objects := [] },
    processed := true, usedCapability := false }

/-- Modelled from the spec: the classifier invocation the pipeline makes for
nearest record `r` — prior image bytes and prior detections come from the
twin document of `r` (§2, §4.3). -/
def classifyAt (st : SysState) (r : CaptureRecord) (up : Upload)
    (oracle : Option ClassificationResult) : ClassifyOut :=
  classify up.imageBytes ((twinFor st r.id).map (fun t => t.lastCapture.imageBytes))
    (((twinFor st r.id).map (fun t => t.detections.objects)).getD []) oracle

/-- Modelled from the spec: the control flow of one upload (§2) — geometry
validation, Proximity Matcher, Change Classifier Adapter (only when a
within-radius candidate exists), Reconciliation Engine, Twin State Writer.
The external classifier and the two store writes are oracle arguments. -/
def ingest (dist : ℤ → ℤ → ℤ → ℤ → ℤ) (radius : ℤ) (oracle : Option ClassificationResult)
    (recordWriteOk twinWriteOk : Bool) (st : SysState) (up : Upload) : IngestTrace :=
  if validGeometry up.lat up.lon then
    match findNearest dist st.records up.camera_id up.lat up.lon radius with
    | none =>
      let out := applyDecision st .createNew up defaultClassify recordWriteOk twinWriteOk
      { post := out.1, res := out.2, usedCapability := false }
    | some r =>
      let c := classifyAt st r up oracle
      let d := decideOutcome (some r) c.result.majorChange
      let out := applyDecision st d up c recordWriteOk twinWriteOk
      { post := out.1, res := out.2, usedCapability := c.usedCapability }
  else { post := st, res := .error .geometryInvalid, usedCapability := false }

/-- Modelled from the spec: a sequence of uploads processed in order (§5's
per-camera serialization collapses to sequential execution in this
embedding); every store write succeeds. -/
def runUploads (dist : ℤ → ℤ → ℤ → ℤ → ℤ) (radius : ℤ)
    (items : List (Upload × Option ClassificationResult)) (st : SysState) : SysState :=
  match items with
  | [] => st
  | x :: rest => runUploads dist radius rest (ingest dist radius x.2 true true st x.1).post

/-- Well-formedness of the store pair: record ids are below the next id to
be assigned, record and twin ids correspond 1:1 in order (§3's TwinDocument
identity invariant), and record ids are unique. -/
def WF (st : SysState) : Prop :=
  (∀ r ∈ st.records, r.id < st.nextId) ∧
  st.records.map (fun r => r.id) = st.twins.map (fun t => t.id) ∧
  (st.records.map (fun r => r.id)).Nodup

/-- The records the store holds for one camera. -/
def camRecords (st : SysState) (camera : String) : List CaptureRecord :=
  st.records.filter (fun r => r.camera_id == camera)

/-- Total history length across all twin documents. -/
def histSum (st : SysState) : Nat :=
  (st.twins.map (fun t => t.history.length)).sum

/-- Modelled from the spec: degree → radian conversion used by the Distance
Evaluator (§4.1). -/
noncomputable def deg2rad (x : ℝ) : ℝ := x * (Real.pi / 180)

/-- Modelled from the spec: the haversine of an angle, `sin²(x/2)` (§4.1). -/
noncomputable def hav (x : ℝ) : ℝ := Real.sin (x / 2) ^ 2

/-- Modelled from the spec: the `a` term of the haversine formula (§4.1). -/
noncomputable def haversineTerm (latA lonA latB lonB : ℝ) : ℝ :=
  hav (deg2rad (latB - latA)) +
    Real.cos (deg2rad latA) * Real.cos (deg2rad latB) * hav (deg2rad (lonB - lonA))

/-- Modelled from the spec: `distanceMeters(latA, lonA, latB, lonB)` (§4.1),
the haversine great-circle distance on a sphere of mean radius 6 371 000 m;
the evaluator itself is not in the repository sources.  Floating-point
arithmetic is modelled by exact reals. -/
noncomputable def distanceMeters (latA lonA latB lonB : ℝ) : ℝ :=
  2 * 6371000 * Real.arcsin (Real.sqrt (haversineTerm latA lonA latB lonB))

/-- `withinRadius` over the real-valued evaluator (§4.1). -/
def withinRadiusReal (d radiusMeters : ℝ) : Prop := d ≤ radiusMeters

/- ------------------------------------------------------------------ -/
/- Embedding of `DittoPage.handleLoad` from `src/unnamed/part_001`.    -/
/- ------------------------------------------------------------------ -/

/-- Result of the JavaScript `Number()` conversion: NaN, a signed infinity,
or a finite value (doubles are modelled by exact rationals). -/
inductive JsNum where
  | nan : JsNum
  | inf : Bool → JsNum
  | fin : ℚ → JsNum
  deriving DecidableEq, Repr

/-- `Number.isNaN` on a `JsNum`. -/
def jsIsNaN : JsNum → Bool
  | .nan => true
  | _ => false

/-- The JavaScript comparison `x <= 0` on a `JsNum` (false on NaN). -/
def jsLeZero : JsNum → Bool
  | .nan => false
  | .inf neg => neg
  | .fin q => decide (q ≤ 0)

/-- Strip one optional leading sign, returning whether it was a minus. -/
def splitSign : List Char → Bool × List Char
  | '+' :: cs => (false, cs)
  | '-' :: cs => (true, cs)
  | cs => (false, cs)

/-- Split a character list at the first exponent marker `e`/`E`. -/
def splitExp : List Char → List Char × Option (List Char)
  | [] => ([], none)
  | c :: cs =>
    if c = 'e' ∨ c = 'E' then ([], some cs)
    else
      let r := splitExp cs
      (c :: r.1, r.2)

/-- Split a character list at the first decimal point. -/
def splitDot : List Char → List Char × Option (List Char)
  | [] => ([], none)
  | c :: cs =>
    if c = '.' then ([], some cs)
    else
      let r := splitDot cs
      (c :: r.1, r.2)

/-- Value of a digit character in bases up to 16 (sentinel 99 otherwise). -/
def digitVal (c : Char) : Nat :=
  if c.isDigit then c.toNat - 48
  else if 'a' ≤ c ∧ c ≤ 'f' then c.toNat - 87
  else if 'A' ≤ c ∧ c ≤ 'F' then c.toNat - 55
  else 99

/-- Parse a non-empty run of digits in the given base. -/
def radixNat (base : Nat) (cs : List Char) : Option Nat :=
  if cs = [] then none
  else cs.foldl (fun acc c =>
    acc.bind (fun n => if digitVal c < base then some (n * base + digitVal c) else none)) (some 0)

/-- Parse the digits-only decimal integer part. -/
def natOfDigits (cs : List Char) : Option Nat := radixNat 10 cs

/-- Parse the exponent clause of a decimal literal. -/
def parseExpVal (cs : List Char) : Option ℤ :=
  let s := splitSign cs
  (natOfDigits s.2).map (fun n => if s.1 then -(n : ℤ) else (n : ℤ))

/-- Parse a decimal mantissa `digits[.digits]` (either side may be empty but
not both). -/
def parseMantissa (cs : List Char) : Option ℚ :=
  let s := splitDot cs
  match s.2 with
  | none => (natOfDigits s.1).map (fun n => (n : ℚ))
  | some fp =>
    if s.1 = [] ∧ fp = [] then none
    else
      let ipVal : Option Nat := if s.1 = [] then some 0 else natOfDigits s.1
      let fpVal : Option (Nat × Nat) :=
        if fp = [] then some (0, 0) else (natOfDigits fp).map (fun n => (n, fp.length))
      match ipVal, fpVal with
      | some i, some f => some ((i : ℚ) + (f.1 : ℚ) / (10 : ℚ) ^ f.2)
      | _, _ => none

/-- Decimal branch of `Number()`: optional sign, `Infinity`, or a decimal
literal with optional exponent. -/
def decimalJs (cs : List Char) : JsNum :=
  let s := splitSign cs
  if s.2 = "Infinity".toList then .inf s.1
  else
    let m := splitExp s.2
    match parseMantissa m.1, (match m.2 with | none => some (0 : ℤ) | some e => parseExpVal e) with
    | some v, some e =>
      let value := v * (10 : ℚ) ^ e
      .fin (if s.1 then -value else value)
    | _, _ => .nan

/-- Model of the JavaScript `Number()` conversion applied to an
already-trimmed string: empty → 0, `0x`/`0b`/`0o` radix literals (no sign
allowed), otherwise a signed decimal or `Infinity`; anything else is NaN.
Double rounding is not modelled (values stay exact rationals). -/
def jsNumber (str : String) : JsNum :=
  let cs := str.toList
  if cs = [] then .fin 0
  else
    match cs with
    | '0' :: c :: rest =>
      if c = 'x' ∨ c = 'X' then (match radixNat 16 rest with | some n => .fin n | none => .nan)
      else if c = 'b' ∨ c = 'B' then (match radixNat 2 rest with | some n => .fin n | none => .nan)
      else if c = 'o' ∨ c = 'O' then (match radixNat 8 rest with | some n => .fin n | none => .nan)
      else decimalJs cs
    | _ => decimalJs cs

/-- Model of the JavaScript `String.prototype.trim`. -/
def trimString (str : String) : String :=
  ⟨((str.toList.dropWhile Char.isWhitespace).reverse.dropWhile Char.isWhitespace).reverse⟩

/-- Component state of `DittoPage` (src/unnamed/part_001): the two inputs,
the loading flag, the error banner and the three response panels (payloads
kept as opaque strings). -/
structure DittoPageState where
  cameraId : String
  imageId : String
  loading : Bool
  error : Option String
  stateResp : Option String
  capturesResp : Option String
  revisionsResp : Option String
  deriving DecidableEq, Repr

/-- The three fetches `handleLoad` can issue, keyed by the encoded camera id
and the parsed image id (`base`, `base/captures`, `base/revisions`). -/
inductive DittoRequest where
  | stateReq : String → JsNum → DittoRequest
  | capturesReq : String → JsNum → DittoRequest
  | revisionsReq : String → JsNum → DittoRequest
  deriving DecidableEq, Repr

/-- One fetch reply: `res.ok`, `res.status`, the parsed JSON body as an
opaque payload and its optional `detail` field. -/
structure FetchReply where
  ok : Bool
  status : Nat
  detail : Option String
  payload : String
  deriving DecidableEq, Repr

/-- JavaScript `a || b` on the optional `detail` string (empty string is
falsy). -/
def jsOrElse (d : Option String) (fallback : String) : String :=
  match d with
  | some s => if s = "" then fallback else s
  | none => fallback

/-- Embedding of `DittoPage.handleLoad` (src/unnamed/part_001): trims both
inputs, validates them (camera non-empty; image id parses to a number that
is not NaN and is strictly positive), and only then clears the previous
responses and issues the three fetches, whose replies are provided by the
`reply` oracle; returns the resulting component state and the list of
issued requests.  The `finally` clause leaves `loading = false` at the end
of every path that started loading. -/
def handleLoad (s : DittoPageState) (reply : DittoRequest → FetchReply) :
    DittoPageState × List DittoRequest :=
  let trimmedCamera := trimString s.cameraId
  let trimmedImage := trimString s.imageId
  if trimmedCamera = "" then
    ({ s with error := some ("Enter camera_id") }, [])
  else
    let idNum := jsNumber trimmedImage
    if trimmedImage = "" ∨ jsIsNaN idNum ∨ jsLeZero idNum then
      ({ s with error := some ("Enter a valid numeric image_id (DB id)") }, [])
    else
      let s1 := { s with error := none, loading := true, stateResp := none,
                         capturesResp := none, revisionsResp := none }
      let rs := reply (.stateReq trimmedCamera idNum)
      let rc := reply (.capturesReq trimmedCamera idNum)
      let rv := reply (.revisionsReq trimmedCamera idNum)
      let s2 :=
        if rs.ok = false then
          { s1 with error := some (jsOrElse rs.detail ("State error " ++ toString rs.status)),
                    loading := false }
        else if rc.ok = false then
          { s1 with error := some (jsOrElse rc.detail ("Captures error " ++ toString rc.status)),
                    loading := false }
        else if rv.ok = false then
          { s1 with error := some (jsOrElse rv.detail ("Revisions error " ++ toString rv.status)),
                    loading := false }
        else
          { s1 with stateResp := some rs.payload, capturesResp := some rc.payload,
                    revisionsResp := some rv.payload, loading := false }
      (s2, [.stateReq trimmedCamera idNum, .capturesReq trimmedCamera idNum,
            .revisionsReq trimmedCamera idNum])

/- ------------------------------------------------------------------ -/
/- Concrete sample data used to exercise the definitions.              -/
/- ------------------------------------------------------------------ -/

/-- A concrete distance function used to exercise the parametric pipeline
(taxicab distance in degree space). -/
def flatDist (latA lonA latB lonB : ℤ) : ℤ := |latA - latB| + |lonA - lonB|

/-- A concrete snapshot. -/
def sampleSnap1 : Snapshot :=
  { imageBytes := [1, 2, 3], captured_at := 100, lat := 0, lon := 0 }

/-- A concrete capture record for camera-01 at the origin. -/
def sampleRecord1 : CaptureRecord :=
  { id := 1, camera_id := "camera-01", lat := 0, lon := 0, captured_at := 100,
    processed := true, changed := false, reason := "", caption := "" }

/-- A second, farther capture record for camera-01. -/
def sampleRecord2 : CaptureRecord :=
  { id := 2, camera_id := "camera-01", lat := 0, lon := 3, captured_at := 110,
    processed := true, changed := false, reason := "", caption := "" }

/-- A capture record for a different camera. -/
def sampleRecord3 : CaptureRecord :=
  { id := 3, camera_id := "camera-02", lat := 0, lon := 0, captured_at := 120,
    processed := true, changed := false, reason := "", caption := "" }

/-- The twin document paired with `sampleRecord1`. -/
def sampleTwin1 : TwinDocument :=
  { id := 1, camera_id := "camera-01", lastCapture := sampleSnap1, history := [sampleSnap1],
    detections := { objects := [], prev := none, changed_since_previous := false,
                    change_reason := "", caption := "" } }

/-- The twin document paired with `sampleRecord2`. -/
def sampleTwin2 : TwinDocument :=
  { id := 2, camera_id := "camera-01",
    lastCapture := { imageBytes := [4], captured_at := 110, lat := 0, lon := 3 },
    history := [{ imageBytes := [4], captured_at := 110, lat := 0, lon := 3 }],
    detections := { objects := [], prev := none, changed_since_previous := false,
                    change_reason := "", caption := "" } }

/-- The twin document paired with `sampleRecord3`. -/
def sampleTwin3 : TwinDocument :=
  { id := 3, camera_id := "camera-02", lastCapture := sampleSnap1, history := [sampleSnap1],
    detections := { objects := [], prev := none, changed_since_previous := false,
                    change_reason := "", caption := "" } }

/-- A concrete well-formed system state with three records and their twins. -/
def sampleState : SysState :=
  { records := [sampleRecord1, sampleRecord2, sampleRecord3],
    twins := [sampleTwin1, sampleTwin2, sampleTwin3], nextId := 4 }

/-- A concrete upload near `sampleRecord1`. -/
def sampleUpload : Upload :=
  { camera_id := "camera-01", lat := 0, lon := 1, captured_at := 200, imageBytes := [9] }

/-- A concrete upload whose bytes equal the stored prior capture of
`sampleRecord1`. -/
def sampleUploadSame : Upload :=
  { camera_id := "camera-01", lat := 0, lon := 1, captured_at := 200, imageBytes := [1, 2, 3] }

/-- A concrete classifier payload reporting a major change. -/
def sampleMajor : ClassificationResult :=
  { majorChange := true, reason := "object removed", caption := "cap", objects := ["pole"] }

/-- The empty system state. -/
def emptyState : SysState := { records := [], twins := [], nextId := 1 }

/-- A concrete `DittoPage` component state with a non-numeric image id and a
previously loaded response panel. -/
def sampleDittoState : DittoPageState :=
  { cameraId := "camera-01", imageId := "abc", loading := false, error := none,
    stateResp := some ("old"), capturesResp := none, revisionsResp := none }

/-- A concrete fetch oracle that always succeeds. -/
def sampleReply : DittoRequest → FetchReply :=
  fun _ => { ok := true, status := 200, detail := none, payload := "p" }

/-- Two concrete same-camera uploads within radius of each other. -/
def witnessItems : List (Upload × Option ClassificationResult) :=
  [({ camera_id := "camera-01", lat := 0, lon := 0, captured_at := 100, imageBytes := [1] },
    none),
   ({ camera_id := "camera-01", lat := 0, lon := 2, captured_at := 150, imageBytes := [2] },
    some { majorChange := true, reason := "changed", caption := "c2", objects := [] })]

/- ------------------------------------------------------------------ -/
/- Proximity matcher lemmas.                                           -/
/- ------------------------------------------------------------------ -/

lemma pickNearest_cons_none {d : CaptureRecord → ℤ} {rs : List CaptureRecord}
    (r : CaptureRecord) (hp : pickNearest d rs = none) :
    pickNearest d (r :: rs) = some r := by
  unfold pickNearest
  rw [hp]

lemma pickNearest_cons_some {d : CaptureRecord → ℤ} {rs : List CaptureRecord}
    {b : CaptureRecord} (r : CaptureRecord) (hp : pickNearest d rs = some b) :
    pickNearest d (r :: rs) =
      if d r < d b ∨ (d r = d b ∧ r.id < b.id) then some r else some b := by
  unfold pickNearest
  rw [hp]

lemma pickNearest_eq_none {d : CaptureRecord → ℤ} :
    ∀ {l : List CaptureRecord}, pickNearest d l = none ↔ l = []
  | [] => by simp [pickNearest]
  | r :: rs => by
    constructor
    · intro h
      exfalso
      cases hp : pickNearest d rs with
      | none => rw [pickNearest_cons_none r hp] at h; exact Option.noConfusion h
      | some b =>
        rw [pickNearest_cons_some r hp] at h
        split at h <;> exact Option.noConfusion h
    · intro h
      exact absurd h (List.cons_ne_nil r rs)

lemma pickNearest_mem {d : CaptureRecord → ℤ} :
    ∀ {l : List CaptureRecord} {r : CaptureRecord}, pickNearest d l = some r → r ∈ l := by
  intro l
  induction l with
  | nil => intro r h; simp [pickNearest] at h
  | cons a l ih =>
    intro r h
    cases hp : pickNearest d l with
    | none =>
      rw [pickNearest_cons_none a hp] at h
      exact (Option.some.inj h) ▸ List.mem_cons_self a l
    | some b =>
      rw [pickNearest_cons_some a hp] at h
      split at h
      · exact (Option.some.inj h) ▸ List.mem_cons_self a l
      · exact (Option.some.inj h) ▸ List.mem_cons_of_mem a (ih hp)

lemma pickNearest_min {d : CaptureRecord → ℤ} :
    ∀ {l : List CaptureRecord} {r : CaptureRecord}, pickNearest d l = some r →
      ∀ x ∈ l, d r < d x ∨ (d r = d x ∧ r.id ≤ x.id) := by
  intro l
  induction l with
  | nil => intro r h; simp [pickNearest] at h
  | cons a l ih =>
    intro r h x hx
    cases hp : pickNearest d l with
    | none =>
      rw [pickNearest_cons_none a hp] at h
      have hl : l = [] := pickNearest_eq_none.mp hp
      have hr : a = r := Option.some.inj h
      subst hr
      subst hl
      rcases List.mem_cons.mp hx with hxa | hxl
      · right; exact ⟨by rw [hxa], by rw [hxa]⟩
      · exact absurd hxl (List.not_mem_nil x)
    | some b =>
      rw [pickNearest_cons_some a hp] at h
      by_cases hc : d a < d b ∨ (d a = d b ∧ a.id < b.id)
      · rw [if_pos hc] at h
        have hr : a = r := Option.some.inj h
        subst hr
        rcases List.mem_cons.mp hx with hxa | hxl
        · right; exact ⟨by rw [hxa], by rw [hxa]⟩
        · have hb := ih hp x hxl
          rcases hc with hlt | ⟨heq, hid⟩
          · rcases hb with hlt2 | ⟨heq2, _⟩
            · exact Or.inl (lt_trans hlt hlt2)
            · exact Or.inl (heq2 ▸ hlt)
          · rcases hb with hlt2 | ⟨heq2, hid2⟩
            · exact Or.inl (heq ▸ hlt2)
            · exact Or.inr ⟨heq.trans heq2, le_trans (le_of_lt hid) hid2⟩
      · rw [if_neg hc] at h
        have hr : b = r := Option.some.inj h
        subst hr
        push_neg at hc
        rcases List.mem_cons.mp hx with hxa | hxl
        · subst hxa
          rcases lt_or_eq_of_le hc.1 with hlt | heq
          · exact Or.inl hlt
          · exact Or.inr ⟨heq, hc.2 heq.symm⟩
        · exact ih hp x hxl

lemma mem_candidates {dist : ℤ → ℤ → ℤ → ℤ → ℤ} {records : List CaptureRecord}
    {camera : String} {lat lon radius : ℤ} {r : CaptureRecord} :
    r ∈ candidates dist records camera lat lon radius ↔
      r ∈ records ∧ r.camera_id = camera ∧ dist lat lon r.lat r.lon ≤ radius := by
  simp [candidates, withinRadius, List.mem_filter, and_assoc]

/-- C2.  `findNearest` considers only records of the requested camera,
returns a within-radius record of minimum distance (distance ≤ that of every
other same-camera record), resolves equal-distance ties to the lowest record
id, and returns `none` exactly when no same-camera record lies within the
radius; it is read-only by construction (it computes a value from the record
list and returns no store). -/
theorem findNearest_spec (dist : ℤ → ℤ → ℤ → ℤ → ℤ) (records : List CaptureRecord)
    (camera : String) (lat lon radius : ℤ) :
    (∀ r, findNearest dist records camera lat lon radius = some r →
      r ∈ records ∧ r.camera_id = camera ∧ dist lat lon r.lat r.lon ≤ radius ∧
      (∀ x ∈ records, x.camera_id = camera →
        dist lat lon r.lat r.lon ≤ dist lat lon x.lat x.lon) ∧
      (∀ x ∈ records, x.camera_id = camera → dist lat lon x.lat x.lon ≤ radius →
        dist lat lon r.lat r.lon = dist lat lon x.lat x.lon → r.id ≤ x.id)) ∧
    (findNearest dist records camera lat lon radius = none ↔
      ∀ x ∈ records, x.camera_id = camera → ¬(dist lat lon x.lat x.lon ≤ radius)) := by
  constructor
  · intro r h
    unfold findNearest at h
    have hcand := mem_candidates.mp (pickNearest_mem h)
    refine ⟨hcand.1, hcand.2.1, hcand.2.2, ?_, ?_⟩
    · intro x hxrec hxcam
      by_cases hxr : dist lat lon x.lat x.lon ≤ radius
      · have hxmem := mem_candidates.mpr ⟨hxrec, hxcam, hxr⟩
        rcases pickNearest_min h x hxmem with hlt | ⟨heq, _⟩
        · exact le_of_lt hlt
        · exact le_of_eq heq
      · exact le_trans hcand.2.2 (le_of_lt (not_le.mp hxr))
    · intro x hxrec hxcam hxr heq
      have hxmem := mem_candidates.mpr ⟨hxrec, hxcam, hxr⟩
      rcases pickNearest_min h x hxmem with hlt | ⟨_, hid⟩
      · exact absurd heq (ne_of_lt hlt)
      · exact hid
  · constructor
    · intro h x hxrec hxcam hxr
      unfold findNearest at h
      have hnil := pickNearest_eq_none.mp h
      have hxmem := mem_candidates.mpr ⟨hxrec, hxcam, hxr⟩
      rw [hnil] at hxmem
      exact absurd hxmem (List.not_mem_nil x)
    · intro h
      unfold findNearest
      rw [pickNearest_eq_none, List.eq_nil_iff_forall_not_mem]
      intro a ha
      have := mem_candidates.mp ha
      exact h a this.1 this.2.1 this.2.2

/-- Witness for C2 on concrete data: with records at taxicab distances 1, 2
and a foreign-camera record at distance 1, the matcher picks `sampleRecord1`
and the spec theorem yields its guarantees there. -/
theorem findNearest_spec_witness :
    sampleRecord1 ∈ sampleState.records ∧ sampleRecord1.camera_id = "camera-01" ∧
      flatDist 0 1 sampleRecord1.lat sampleRecord1.lon ≤ 10 := by
  have h := (findNearest_spec flatDist sampleState.records "camera-01" 0 1 10).1
    sampleRecord1 (by decide)
  exact ⟨h.1, h.2.1, h.2.2.1⟩

/- ------------------------------------------------------------------ -/
/- Ingest equations and store lemmas.                                  -/
/- ------------------------------------------------------------------ -/

lemma findNearest_mem {dist : ℤ → ℤ → ℤ → ℤ → ℤ} {records : List CaptureRecord}
    {camera : String} {lat lon radius : ℤ} {r : CaptureRecord}
    (h : findNearest dist records camera lat lon radius = some r) :
    r ∈ records ∧ r.camera_id = camera ∧ dist lat lon r.lat r.lon ≤ radius := by
  unfold findNearest at h
  exact mem_candidates.mp (pickNearest_mem h)

lemma applyDecision_fail {st : SysState} {d : Decision} {up : Upload} {c : ClassifyOut}
    {recordWriteOk twinWriteOk : Bool}
    (hfail : recordWriteOk = false ∨ twinWriteOk = false) :
    applyDecision st d up c recordWriteOk twinWriteOk = (st, .error .storeWriteFailed) := by
  rcases hfail with h | h <;> subst h <;> simp [applyDecision]

lemma ingest_geo_fail {dist : ℤ → ℤ → ℤ → ℤ → ℤ} {radius : ℤ}
    {oracle : Option ClassificationResult} {wr wt : Bool} {st : SysState} {up : Upload}
    (h : validGeometry up.lat up.lon = false) :
    ingest dist radius oracle wr wt st up =
      { post := st, res := .error .geometryInvalid, usedCapability := false } := by
  unfold ingest
  rw [h]
  simp

lemma ingest_none {dist : ℤ → ℤ → ℤ → ℤ → ℤ} {radius : ℤ}
    {oracle : Option ClassificationResult} {wr wt : Bool} {st : SysState} {up : Upload}
    (hg : validGeometry up.lat up.lon = true)
    (hn : findNearest dist st.records up.camera_id up.lat up.lon radius = none) :
    ingest dist radius oracle wr wt st up =
      { post := (applyDecision st .createNew up defaultClassify wr wt).1,
        res := (applyDecision st .createNew up defaultClassify wr wt).2,
        usedCapability := false } := by
  unfold ingest
  rw [hg, hn]
  rfl

lemma ingest_some {dist : ℤ → ℤ → ℤ → ℤ → ℤ} {radius : ℤ}
    {oracle : Option ClassificationResult} {wr wt : Bool} {st : SysState} {up : Upload}
    {r : CaptureRecord}
    (hg : validGeometry up.lat up.lon = true)
    (hn : findNearest dist st.records up.camera_id up.lat up.lon radius = some r) :
    ingest dist radius oracle wr wt st up =
      { post := (applyDecision st
          (decideOutcome (some r) (classifyAt st r up oracle).result.majorChange)
          up (classifyAt st r up oracle) wr wt).1,
        res := (applyDecision st
          (decideOutcome (some r) (classifyAt st r up oracle).result.majorChange)
          up (classifyAt st r up oracle) wr wt).2,
        usedCapability := (classifyAt st r up oracle).usedCapability } := by
  unfold ingest
  rw [hg, hn]
  rfl

lemma histSum_map_update (l : List TwinDocument) (i : Nat) (f : TwinDocument → TwinDocument)
    (hf : ∀ t, (f t).history.length = t.history.length + 1) :
    ((l.map (fun t => if t.id = i then f t else t)).map (fun t => t.history.length)).sum =
      ((l.map (fun t => t.history.length)).sum) + l.countP (fun t => t.id == i) := by
  induction l with
  | nil => simp
  | cons t l ih =>
    by_cases h : t.id = i
    · simp only [List.map_cons, if_pos h, List.sum_cons, List.countP_cons, ih, hf,
        beq_iff_eq, h, if_pos]
      omega
    · have hb : (t.id == i) = false := by simp [h]
      simp only [List.map_cons, if_neg h, List.sum_cons, List.countP_cons, ih, hb,
        if_neg, Bool.false_eq_true, not_false_iff]
      omega

lemma countP_id_eq_one {l : List TwinDocument} {i : Nat}
    (hmem : ∃ t ∈ l, t.id = i) (hnd : (l.map (fun t => t.id)).Nodup) :
    l.countP (fun t => t.id == i) = 1 := by
  induction l with
  | nil =>
    rcases hmem with ⟨t, ht, _⟩
    exact absurd ht (List.not_mem_nil t)
  | cons t l ih =>
    simp only [List.map_cons, List.nodup_cons] at hnd
    rcases hmem with ⟨t2, ht2, hid⟩
    rcases List.mem_cons.mp ht2 with rfl | htl
    · have hzero : l.countP (fun x => x.id == i) = 0 := by
        rw [List.countP_eq_zero]
        intro a ha hpa
        have haid : a.id = i := by simpa using hpa
        exact hnd.1 (hid ▸ haid ▸ List.mem_map_of_mem (fun x => x.id) ha)
      rw [List.countP_cons]
      simp [hzero, hid]
    · have hhead : ¬(t.id = i) := by
        intro hti
        exact hnd.1 (by rw [hti, ← hid]; exact List.mem_map_of_mem (fun x => x.id) htl)
      rw [List.countP_cons]
      have hrec := ih ⟨t2, htl, hid⟩ hnd.2
      simp [hhead, hrec]

lemma twin_exists_of_record {st : SysState} {r : CaptureRecord}
    (hwf : WF st) (hr : r ∈ st.records) : ∃ t ∈ st.twins, t.id = r.id := by
  have hmem : r.id ∈ st.records.map (fun x => x.id) := List.mem_map_of_mem (fun x => x.id) hr
  rw [hwf.2.1] at hmem
  rcases List.mem_map.mp hmem with ⟨t, ht, hid⟩
  exact ⟨t, ht, hid⟩

lemma twins_id_nodup {st : SysState} (hwf : WF st) :
    (st.twins.map (fun t => t.id)).Nodup := by
  rw [← hwf.2.1]
  exact hwf.2.2

lemma histSum_overwrite {st : SysState} {up : Upload} {c : ClassifyOut} {flag : Bool}
    {i : Nat} (hwf : WF st) (hex : ∃ t ∈ st.twins, t.id = i) :
    ((st.twins.map (fun t => if t.id = i then overwriteTwin up c flag t else t)).map
      (fun t => t.history.length)).sum = histSum st + 1 := by
  rw [histSum_map_update st.twins i (overwriteTwin up c flag)
    (fun t => by simp [overwriteTwin])]
  rw [countP_id_eq_one hex (twins_id_nodup hwf)]
  rfl

/- ------------------------------------------------------------------ -/
/- Claim theorems: decision table, idempotence, degrade, atomicity.    -/
/- ------------------------------------------------------------------ -/

/-- C1.  For every upload with valid geometry and succeeding writes the
engine evaluates the three-outcome table: no within-radius nearest record
gives CreateNew; a nearest record gives OverwriteWithChange on a major
change and OverwriteNoChange otherwise, always targeting the single nearest
record's id; the external classifier is only ever invoked when a
within-radius candidate exists; and no CreateNew outcome is possible while
a nearest candidate exists. -/
theorem reconcile_decision_table (dist : ℤ → ℤ → ℤ → ℤ → ℤ) (radius : ℤ)
    (oracle : Option ClassificationResult) (st : SysState) (up : Upload)
    (hgeo : validGeometry up.lat up.lon = true) :
    (findNearest dist st.records up.camera_id up.lat up.lon radius = none →
      (ingest dist radius oracle true true st up).res =
        .ok { decision := .createNew, record_id := st.nextId, changed := false, reason := "" } ∧
      (ingest dist radius oracle true true st up).usedCapability = false) ∧
    (∀ r, findNearest dist st.records up.camera_id up.lat up.lon radius = some r →
      ((classifyAt st r up oracle).result.majorChange = true →
        (ingest dist radius oracle true true st up).res =
          .ok { decision := .overwriteWithChange r.id, record_id := r.id, changed := true,
                reason := (classifyAt st r up oracle).result.reason }) ∧
      ((classifyAt st r up oracle).result.majorChange = false →
        (ingest dist radius oracle true true st up).res =
          .ok { decision := .overwriteNoChange r.id, record_id := r.id, changed := false,
                reason := (classifyAt st r up oracle).result.reason }) ∧
      (∀ p, (ingest dist radius oracle true true st up).res = .ok p →
        p.decision ≠ .createNew)) ∧
    ((ingest dist radius oracle true true st up).usedCapability = true →
      ∃ r, findNearest dist st.records up.camera_id up.lat up.lon radius = some r) := by
  refine ⟨?_, ?_, ?_⟩
  · intro hn
    rw [ingest_none hgeo hn]
    exact ⟨rfl, rfl⟩
  · intro r hn
    refine ⟨?_, ?_, ?_⟩
    · intro hmaj
      rw [ingest_some hgeo hn]
      simp only [hmaj, decideOutcome]
      rfl
    · intro hmaj
      rw [ingest_some hgeo hn]
      simp only [hmaj, decideOutcome]
      rfl
    · intro p hp
      rw [ingest_some hgeo hn] at hp
      cases hmaj : (classifyAt st r up oracle).result.majorChange <;>
        simp only [hmaj, decideOutcome] at hp <;>
        · have := Except.ok.inj hp
          intro hd
          rw [← this] at hd
          exact Decision.noConfusion hd
  · intro hcap
    cases hn : findNearest dist st.records up.camera_id up.lat up.lon radius with
    | none =>
      rw [ingest_none hgeo hn] at hcap
      exact Bool.noConfusion hcap
    | some r => exact ⟨r, rfl⟩

/-- Witness for C1: an upload into the empty store creates record 1 and
never touches the classifier. -/
theorem reconcile_decision_table_witness :
    (ingest flatDist 10 (some sampleMajor) true true emptyState sampleUpload).res =
      .ok { decision := .createNew, record_id := 1, changed := false, reason := "" } ∧
    (ingest flatDist 10 (some sampleMajor) true true emptyState sampleUpload).usedCapability
      = false :=
  (reconcile_decision_table flatDist 10 (some sampleMajor) emptyState sampleUpload
    (by decide)).1 (by decide)

/-- C5.  Resubmitting byte-identical image bytes for the same camera and
location (the matcher finds nearest record `r` whose twin stores the same
bytes) short-circuits: the external classifier capability is not invoked,
the outcome is OverwriteNoChange for `r` with `changed = false`, and the
overwritten record keeps `changed = false`. -/
theorem idempotent_resubmission (dist : ℤ → ℤ → ℤ → ℤ → ℤ) (radius : ℤ)
    (oracle : Option ClassificationResult) (st : SysState) (up : Upload)
    (r : CaptureRecord) (t : TwinDocument)
    (hgeo : validGeometry up.lat up.lon = true)
    (hn : findNearest dist st.records up.camera_id up.lat up.lon radius = some r)
    (ht : twinFor st r.id = some t)
    (hb : t.lastCapture.imageBytes = up.imageBytes) :
    (ingest dist radius oracle true true st up).res =
      .ok { decision := .overwriteNoChange r.id, record_id := r.id, changed := false,
            reason := "" } ∧
    (ingest dist radius oracle true true st up).usedCapability = false ∧
    (∃ r2 ∈ (ingest dist radius oracle true true st up).post.records, r2.id = r.id) ∧
    (∀ r2 ∈ (ingest dist radius oracle true true st up).post.records,
      r2.id = r.id → r2.changed = false) := by
  have hc : classifyAt st r up oracle =
      { result := { majorChange := false, reason := "", caption := "",
                    objects := t.detections.objects },
        processed := true, usedCapability := false } := by
    unfold classifyAt
    rw [ht]
    simp [classify, hb]
  rw [ingest_some hgeo hn, hc]
  refine ⟨rfl, rfl, ?_, ?_⟩
  · have hr := (findNearest_mem hn).1
    refine ⟨overwriteRecord up
      { result := { majorChange := false, reason := "", caption := "",
                    objects := t.detections.objects },
        processed := true, usedCapability := false } false r, ?_, rfl⟩
    simp only [decideOutcome, applyDecision, overwriteState]
    exact List.mem_map.mpr ⟨r, hr, by simp⟩
  · intro r2 hr2 hid
    simp only [decideOutcome, applyDecision, overwriteState] at hr2
    simp only [Bool.and_self, if_true] at hr2
    rcases List.mem_map.mp hr2 with ⟨r0, hr0, heq⟩
    by_cases h0 : r0.id = r.id
    · rw [if_pos h0] at heq
      rw [← heq]
      rfl
    · rw [if_neg h0] at heq
      rw [← heq] at hid
      exact absurd hid h0

/-- Witness for C5: resubmitting the stored bytes `[1, 2, 3]` near record 1
is OverwriteNoChange with no classifier call, even though the classifier
oracle would report a major change. -/
theorem idempotent_resubmission_witness :
    (ingest flatDist 10 (some sampleMajor) true true sampleState sampleUploadSame).res =
      .ok { decision := .overwriteNoChange 1, record_id := 1, changed := false, reason := "" } ∧
    (ingest flatDist 10 (some sampleMajor) true true sampleState sampleUploadSame).usedCapability
      = false := by
  have h := idempotent_resubmission flatDist 10 (some sampleMajor) sampleState sampleUploadSame
    sampleRecord1 sampleTwin1 (by decide) (by decide) (by decide) (by decide)
  exact ⟨h.1, h.2.1⟩

/-- C6.  When the external classification capability is unreachable
(oracle `none`) and the stored bytes differ, the engine degrades instead of
blocking: the upload still succeeds as OverwriteNoChange of the nearest
record with `changed = false`, the overwritten record is marked
`processed = false` for later reprocessing, and the record/twin write is
still performed (total history grows by one). -/
theorem classifier_degrade (dist : ℤ → ℤ → ℤ → ℤ → ℤ) (radius : ℤ)
    (st : SysState) (up : Upload) (r : CaptureRecord) (t : TwinDocument)
    (hwf : WF st)
    (hgeo : validGeometry up.lat up.lon = true)
    (hn : findNearest dist st.records up.camera_id up.lat up.lon radius = some r)
    (ht : twinFor st r.id = some t)
    (hb : ¬(t.lastCapture.imageBytes = up.imageBytes)) :
    (ingest dist radius none true true st up).res =
      .ok { decision := .overwriteNoChange r.id, record_id := r.id, changed := false,
            reason := "" } ∧
    (ingest dist radius none true true st up).usedCapability = true ∧
    (∃ r2 ∈ (ingest dist radius none true true st up).post.records,
      r2.id = r.id ∧ r2.processed = false) ∧
    (∀ r2 ∈ (ingest dist radius none true true st up).post.records,
      r2.id = r.id → r2.processed = false) ∧
    histSum (ingest dist radius none true true st up).post = histSum st + 1 := by
  have hc : classifyAt st r up none =
      { result := { majorChange := false, reason := "", caption := "", objects := [] },
        processed := false, usedCapability := true } := by
    unfold classifyAt
    rw [ht]
    simp [classify, hb]
  rw [ingest_some hgeo hn, hc]
  have hr := (findNearest_mem hn).1
  refine ⟨rfl, rfl, ?_, ?_, ?_⟩
  · refine ⟨overwriteRecord up
      { result := { majorChange := false, reason := "", caption := "", objects := [] },
        processed := false, usedCapability := true } false r, ?_, rfl, rfl⟩
    simp only [decideOutcome, applyDecision, overwriteState]
    exact List.mem_map.mpr ⟨r, hr, by simp⟩
  · intro r2 hr2 hid
    simp only [decideOutcome, applyDecision, overwriteState] at hr2
    simp only [Bool.and_self, if_true] at hr2
    rcases List.mem_map.mp hr2 with ⟨r0, hr0, heq⟩
    by_cases h0 : r0.id = r.id
    · rw [if_pos h0] at heq
      rw [← heq]
      rfl
    · rw [if_neg h0] at heq
      rw [← heq] at hid
      exact absurd hid h0
  · simp only [decideOutcome, applyDecision, overwriteState]
    exact histSum_overwrite hwf (twin_exists_of_record hwf hr)

/-- Witness for C6: with the classifier oracle unavailable and fresh bytes,
the upload near record 1 still succeeds and flags it unprocessed. -/
theorem classifier_degrade_witness :
    (ingest flatDist 10 none true true sampleState sampleUpload).res =
      .ok { decision := .overwriteNoChange 1, record_id := 1, changed := false, reason := "" } ∧
    histSum (ingest flatDist 10 none true true sampleState sampleUpload).post =
      histSum sampleState + 1 := by
  have h := classifier_degrade flatDist 10 sampleState sampleUpload sampleRecord1 sampleTwin1
    (by refine ⟨?_, by decide, by decide⟩; decide) (by decide) (by decide) (by decide) (by decide)
  exact ⟨h.1, h.2.2.2.2⟩

/-- C7.  If the CaptureRecord write or the TwinDocument write fails, the
whole reconciliation aborts with the retryable `StoreWriteFailed` error and
no partial write is observable: the post state equals the pre state, so
neither the record store nor any twin document is changed. -/
theorem store_failure_atomic (dist : ℤ → ℤ → ℤ → ℤ → ℤ) (radius : ℤ)
    (oracle : Option ClassificationResult) (recordWriteOk twinWriteOk : Bool)
    (st : SysState) (up : Upload)
    (hgeo : validGeometry up.lat up.lon = true)
    (hfail : recordWriteOk = false ∨ twinWriteOk = false) :
    (ingest dist radius oracle recordWriteOk twinWriteOk st up).post = st ∧
    (ingest dist radius oracle recordWriteOk twinWriteOk st up).res =
      .error .storeWriteFailed := by
  cases hn : findNearest dist st.records up.camera_id up.lat up.lon radius with
  | none =>
    rw [ingest_none hgeo hn, applyDecision_fail hfail]
    exact ⟨rfl, rfl⟩
  | some r =>
    rw [ingest_some hgeo hn, applyDecision_fail hfail]
    exact ⟨rfl, rfl⟩

/-- Witness for C7: a failing record write leaves the sample store intact
and surfaces `StoreWriteFailed`. -/
theorem store_failure_atomic_witness :
    (ingest flatDist 10 none false true sampleState sampleUpload).post = sampleState ∧
    (ingest flatDist 10 none false true sampleState sampleUpload).res =
      .error .storeWriteFailed :=
  store_failure_atomic flatDist 10 none false true sampleState sampleUpload
    (by decide) (Or.inl rfl)

/- ------------------------------------------------------------------ -/
/- State-evolution lemmas for the invariant claims.                    -/
/- ------------------------------------------------------------------ -/

lemma candidates_eq_filter (dist : ℤ → ℤ → ℤ → ℤ → ℤ) (records : List CaptureRecord)
    (camera : String) (lat lon radius : ℤ) :
    candidates dist records camera lat lon radius =
      (records.filter (fun r => r.camera_id == camera)).filter
        (fun r => withinRadius (dist lat lon r.lat r.lon) radius) := by
  unfold candidates
  induction records with
  | nil => rfl
  | cons r l ih =>
    cases h1 : (r.camera_id == camera) <;>
      cases h2 : withinRadius (dist lat lon r.lat r.lon) radius <;>
      simp [List.filter_cons, h1, h2, ih]

lemma filter_camera_map (cam : String) (l : List CaptureRecord)
    (g : CaptureRecord → CaptureRecord) (hg : ∀ r, (g r).camera_id = r.camera_id) :
    (l.map g).filter (fun r => r.camera_id == cam) =
      (l.filter (fun r => r.camera_id == cam)).map g := by
  induction l with
  | nil => rfl
  | cons r l ih =>
    by_cases h : r.camera_id = cam
    · simp [List.filter_cons, hg, h, ih]
    · simp [List.filter_cons, hg, h, ih]

lemma overwrite_update_camera (up : Upload) (c : ClassifyOut) (flag : Bool) (i : Nat) :
    ∀ r : CaptureRecord,
      ((fun r => if r.id = i then overwriteRecord up c flag r else r) r).camera_id =
        r.camera_id := by
  intro r
  by_cases h : r.id = i <;> simp [h, overwriteRecord]

lemma camRecords_overwriteState (st : SysState) (i : Nat) (up : Upload) (c : ClassifyOut)
    (flag : Bool) (cam : String) :
    camRecords (overwriteState st i up c flag) cam =
      (camRecords st cam).map (fun r => if r.id = i then overwriteRecord up c flag r else r) := by
  unfold camRecords overwriteState
  exact filter_camera_map cam st.records _ (overwrite_update_camera up c flag i)

lemma camRecords_createState (st : SysState) (up : Upload) (c : ClassifyOut) (cam : String) :
    camRecords (createState st up c) cam =
      camRecords st cam ++ (if up.camera_id = cam then [newRecordFor st up c] else []) := by
  unfold camRecords createState
  rw [List.filter_append]
  by_cases h : up.camera_id = cam <;> simp [List.filter_cons, newRecordFor, h]

lemma map_id_update_records (l : List CaptureRecord) (i : Nat) (up : Upload)
    (c : ClassifyOut) (flag : Bool) :
    (l.map (fun r => if r.id = i then overwriteRecord up c flag r else r)).map
      (fun r => r.id) = l.map (fun r => r.id) := by
  induction l with
  | nil => rfl
  | cons r l ih =>
    simp only [List.map_cons, ih]
    by_cases h : r.id = i
    · rw [if_pos h]
      rfl
    · rw [if_neg h]

lemma map_id_update_twins (l : List TwinDocument) (i : Nat) (up : Upload)
    (c : ClassifyOut) (flag : Bool) :
    (l.map (fun t => if t.id = i then overwriteTwin up c flag t else t)).map
      (fun t => t.id) = l.map (fun t => t.id) := by
  induction l with
  | nil => rfl
  | cons t l ih =>
    simp only [List.map_cons, ih]
    by_cases h : t.id = i
    · rw [if_pos h]
      rfl
    · rw [if_neg h]

lemma twin_id_lt {st : SysState} (hwf : WF st) : ∀ t ∈ st.twins, t.id < st.nextId := by
  intro t ht
  have hmem : t.id ∈ st.twins.map (fun x => x.id) := List.mem_map_of_mem (fun x => x.id) ht
  rw [← hwf.2.1] at hmem
  rcases List.mem_map.mp hmem with ⟨r, hr, hid⟩
  exact hid ▸ hwf.1 r hr

lemma WF_createState {st : SysState} (hwf : WF st) (up : Upload) (c : ClassifyOut) :
    WF (createState st up c) := by
  refine ⟨?_, ?_, ?_⟩
  · intro r hr
    rcases List.mem_append.mp hr with hl | hnew
    · exact Nat.lt_trans (hwf.1 r hl) (Nat.lt_succ_self _)
    · rcases List.mem_singleton.mp hnew with rfl
      exact Nat.lt_succ_self _
  · show (st.records ++ [newRecordFor st up c]).map (fun r => r.id) =
      (st.twins ++ [newTwinFor st up c]).map (fun t => t.id)
    rw [List.map_append, List.map_append, hwf.2.1]
    rfl
  · show ((st.records ++ [newRecordFor st up c]).map (fun r => r.id)).Nodup
    rw [List.map_append]
    rw [List.nodup_append]
    refine ⟨hwf.2.2, List.nodup_singleton _, ?_⟩
    intro a ha hb
    rcases List.mem_map.mp ha with ⟨r, hr, hid⟩
    have : a = st.nextId := by simpa [newRecordFor] using hb
    rw [this] at hid
    exact absurd hid (Nat.ne_of_lt (hwf.1 r hr))

lemma WF_overwriteState {st : SysState} (hwf : WF st) (i : Nat) (up : Upload)
    (c : ClassifyOut) (flag : Bool) :
    WF (overwriteState st i up c flag) := by
  refine ⟨?_, ?_, ?_⟩
  · intro r hr
    rcases List.mem_map.mp hr with ⟨r0, hr0, heq⟩
    by_cases h0 : r0.id = i
    · rw [if_pos h0] at heq
      rw [← heq]
      exact hwf.1 r0 hr0
    · rw [if_neg h0] at heq
      rw [← heq]
      exact hwf.1 r0 hr0
  · show ((overwriteState st i up c flag).records).map (fun r => r.id) = _
    unfold overwriteState
    rw [map_id_update_records, map_id_update_twins, hwf.2.1]
  · show ((overwriteState st i up c flag).records).map (fun r => r.id) |>.Nodup
    unfold overwriteState
    rw [map_id_update_records]
    exact hwf.2.2

lemma ingest_post_create {dist : ℤ → ℤ → ℤ → ℤ → ℤ} {radius : ℤ}
    {oracle : Option ClassificationResult} {st : SysState} {up : Upload}
    (hg : validGeometry up.lat up.lon = true)
    (hn : findNearest dist st.records up.camera_id up.lat up.lon radius = none) :
    (ingest dist radius oracle true true st up).post = createState st up defaultClassify := by
  rw [ingest_none hg hn]
  rfl

lemma ingest_post_overwrite {dist : ℤ → ℤ → ℤ → ℤ → ℤ} {radius : ℤ}
    {oracle : Option ClassificationResult} {st : SysState} {up : Upload}
    {r : CaptureRecord}
    (hg : validGeometry up.lat up.lon = true)
    (hn : findNearest dist st.records up.camera_id up.lat up.lon radius = some r) :
    (ingest dist radius oracle true true st up).post =
      overwriteState st r.id up (classifyAt st r up oracle)
        ((classifyAt st r up oracle).result.majorChange) := by
  cases hmaj : (classifyAt st r up oracle).result.majorChange <;>
    rw [ingest_some hg hn] <;>
    simp only [hmaj, decideOutcome, applyDecision, Bool.and_self, if_true]

lemma WF_ingest {dist : ℤ → ℤ → ℤ → ℤ → ℤ} {radius : ℤ}
    {oracle : Option ClassificationResult} {st : SysState} {up : Upload}
    (hwf : WF st) : WF (ingest dist radius oracle true true st up).post := by
  by_cases hg : validGeometry up.lat up.lon = true
  · cases hn : findNearest dist st.records up.camera_id up.lat up.lon radius with
    | none =>
      rw [ingest_post_create hg hn]
      exact WF_createState hwf up defaultClassify
    | some r =>
      rw [ingest_post_overwrite hg hn]
      exact WF_overwriteState hwf _ up _ _
  · rw [ingest_geo_fail (Bool.eq_false_iff.mpr hg)]
    exact hwf

lemma histSum_createState (st : SysState) (up : Upload) (c : ClassifyOut) :
    histSum (createState st up c) = histSum st + 1 := by
  unfold histSum createState
  rw [List.map_append, List.sum_append]
  rfl

lemma histSum_overwriteState {st : SysState} {i : Nat} {up : Upload} {c : ClassifyOut}
    {flag : Bool} (hwf : WF st) (hex : ∃ t ∈ st.twins, t.id = i) :
    histSum (overwriteState st i up c flag) = histSum st + 1 := by
  unfold histSum overwriteState
  exact histSum_overwrite hwf hex

lemma ingest_histSum {dist : ℤ → ℤ → ℤ → ℤ → ℤ} {radius : ℤ}
    {oracle : Option ClassificationResult} {st : SysState} {up : Upload}
    (hwf : WF st) (hg : validGeometry up.lat up.lon = true) :
    histSum (ingest dist radius oracle true true st up).post = histSum st + 1 := by
  cases hn : findNearest dist st.records up.camera_id up.lat up.lon radius with
  | none =>
    rw [ingest_post_create hg hn]
    exact histSum_createState st up defaultClassify
  | some r =>
    rw [ingest_post_overwrite hg hn]
    exact histSum_overwriteState hwf
      (twin_exists_of_record hwf (findNearest_mem hn).1)

lemma runUploads_histSum (dist : ℤ → ℤ → ℤ → ℤ → ℤ) (radius : ℤ) :
    ∀ (items : List (Upload × Option ClassificationResult)) (st : SysState), WF st →
      (∀ x ∈ items, validGeometry x.1.lat x.1.lon = true) →
      histSum (runUploads dist radius items st) = histSum st + items.length := by
  intro items
  induction items with
  | nil => intro st _ _; rfl
  | cons x items ih =>
    intro st hwf hv
    show histSum (runUploads dist radius items (ingest dist radius x.2 true true st x.1).post)
      = histSum st + (x :: items).length
    rw [ih _ (WF_ingest hwf) (fun y hy => hv y (List.mem_cons_of_mem x hy)),
      ingest_histSum hwf (hv x (List.mem_cons_self x items))]
    simp [List.length_cons]
    omega

/- ------------------------------------------------------------------ -/
/- Sequence lemmas and the invariant claims.                           -/
/- ------------------------------------------------------------------ -/

lemma runUploads_cons (dist : ℤ → ℤ → ℤ → ℤ → ℤ) (radius : ℤ)
    (x : Upload × Option ClassificationResult)
    (items : List (Upload × Option ClassificationResult)) (st : SysState) :
    runUploads dist radius (x :: items) st =
      runUploads dist radius items (ingest dist radius x.2 true true st x.1).post := rfl

lemma ingest_res_none {dist : ℤ → ℤ → ℤ → ℤ → ℤ} {radius : ℤ}
    {oracle : Option ClassificationResult} {st : SysState} {up : Upload}
    (hg : validGeometry up.lat up.lon = true)
    (hn : findNearest dist st.records up.camera_id up.lat up.lon radius = none) :
    (ingest dist radius oracle true true st up).res =
      .ok { decision := .createNew, record_id := st.nextId, changed := false, reason := "" } := by
  rw [ingest_none hg hn]
  rfl

lemma ingest_res_some {dist : ℤ → ℤ → ℤ → ℤ → ℤ} {radius : ℤ}
    {oracle : Option ClassificationResult} {st : SysState} {up : Upload}
    {r : CaptureRecord}
    (hg : validGeometry up.lat up.lon = true)
    (hn : findNearest dist st.records up.camera_id up.lat up.lon radius = some r) :
    (ingest dist radius oracle true true st up).res =
      .ok { decision := decideOutcome (some r) (classifyAt st r up oracle).result.majorChange,
            record_id := r.id,
            changed := (classifyAt st r up oracle).result.majorChange,
            reason := (classifyAt st r up oracle).result.reason } := by
  cases hmaj : (classifyAt st r up oracle).result.majorChange <;>
    rw [ingest_some hg hn] <;>
    simp only [hmaj, decideOutcome, applyDecision, Bool.and_self, if_true]

lemma runUploads_maintain (dist : ℤ → ℤ → ℤ → ℤ → ℤ) (radius : ℤ) (cam : String) :
    ∀ (items : List (Upload × Option ClassificationResult)) (s : SysState)
      (recd : CaptureRecord) (n : Nat),
      camRecords s cam = [recd] →
      (∃ t ∈ s.twins, t.id = recd.id) →
      (∀ t ∈ s.twins, t.id = recd.id → t.history.length = n) →
      (∀ x ∈ items, x.1.camera_id = cam) →
      (∀ x ∈ items, validGeometry x.1.lat x.1.lon = true) →
      (∀ x ∈ items, dist x.1.lat x.1.lon recd.lat recd.lon ≤ radius) →
      (∀ x ∈ items, ∀ y ∈ items, dist x.1.lat x.1.lon y.1.lat y.1.lon ≤ radius) →
      ∃ recd2 : CaptureRecord,
        camRecords (runUploads dist radius items s) cam = [recd2] ∧
        recd2.id = recd.id ∧
        (∃ t ∈ (runUploads dist radius items s).twins, t.id = recd.id) ∧
        (∀ t ∈ (runUploads dist radius items s).twins, t.id = recd.id →
          t.history.length = n + items.length) := by
  intro items
  induction items with
  | nil =>
    intro s recd n h1 h2 h3 _ _ _ _
    exact ⟨recd, h1, rfl, h2, fun t ht hid => by rw [h3 t ht hid]; simp⟩
  | cons x items ih =>
    intro s recd n h1 h2 h3 hcam hgeo hclose hpair
    have hu_cam : x.1.camera_id = cam := hcam x (List.mem_cons_self x items)
    have hg : validGeometry x.1.lat x.1.lon = true := hgeo x (List.mem_cons_self x items)
    have hwithin : withinRadius (dist x.1.lat x.1.lon recd.lat recd.lon) radius = true := by
      unfold withinRadius
      exact decide_eq_true (hclose x (List.mem_cons_self x items))
    have hcand : candidates dist s.records x.1.camera_id x.1.lat x.1.lon radius = [recd] := by
      rw [candidates_eq_filter, hu_cam]
      have hflt : s.records.filter (fun r => r.camera_id == cam) = [recd] := h1
      rw [hflt]
      simp [List.filter_cons, hwithin]
    have hfn : findNearest dist s.records x.1.camera_id x.1.lat x.1.lon radius = some recd := by
      unfold findNearest
      rw [hcand]
      rfl
    have hpost := @ingest_post_overwrite dist radius x.2 s x.1 recd hg hfn
    rw [runUploads_cons, hpost]
    have hcam1 : camRecords (overwriteState s recd.id x.1 (classifyAt s recd x.1 x.2)
        ((classifyAt s recd x.1 x.2).result.majorChange)) cam =
        [overwriteRecord x.1 (classifyAt s recd x.1 x.2)
          ((classifyAt s recd x.1 x.2).result.majorChange) recd] := by
      rw [camRecords_overwriteState, h1]
      simp
    have h2n : ∃ t ∈ (overwriteState s recd.id x.1 (classifyAt s recd x.1 x.2)
        ((classifyAt s recd x.1 x.2).result.majorChange)).twins, t.id = recd.id := by
      rcases h2 with ⟨t0, ht0, htid⟩
      exact ⟨overwriteTwin x.1 (classifyAt s recd x.1 x.2)
          ((classifyAt s recd x.1 x.2).result.majorChange) t0,
        List.mem_map.mpr ⟨t0, ht0, by rw [if_pos htid]⟩, htid⟩
    have h3n : ∀ t ∈ (overwriteState s recd.id x.1 (classifyAt s recd x.1 x.2)
        ((classifyAt s recd x.1 x.2).result.majorChange)).twins,
        t.id = recd.id → t.history.length = n + 1 := by
      intro t ht hid
      rcases List.mem_map.mp ht with ⟨t0, ht0, heq⟩
      by_cases h0 : t0.id = recd.id
      · rw [if_pos h0] at heq
        rw [← heq]
        show (overwriteTwin _ _ _ t0).history.length = n + 1
        simp [overwriteTwin, h3 t0 ht0 h0]
      · rw [if_neg h0] at heq
        rw [← heq] at hid
        exact absurd hid h0
    have hres := ih (overwriteState s recd.id x.1 (classifyAt s recd x.1 x.2)
        ((classifyAt s recd x.1 x.2).result.majorChange))
      (overwriteRecord x.1 (classifyAt s recd x.1 x.2)
        ((classifyAt s recd x.1 x.2).result.majorChange) recd)
      (n + 1) hcam1 h2n h3n
      (fun y hy => hcam y (List.mem_cons_of_mem x hy))
      (fun y hy => hgeo y (List.mem_cons_of_mem x hy))
      (fun y hy => hpair y (List.mem_cons_of_mem x hy) x (List.mem_cons_self x items))
      (fun y hy z hz => hpair y (List.mem_cons_of_mem x hy) z (List.mem_cons_of_mem x hz))
    rcases hres with ⟨recd2, hr1, hr2, hr3, hr4⟩
    refine ⟨recd2, hr1, hr2, hr3, ?_⟩
    intro t ht hid
    have hlen := hr4 t ht hid
    rw [hlen]
    simp only [List.length_cons]
    omega

/-- C3.  For N ≥ 1 sequential successful same-camera uploads, all pairwise
within the proximity radius, starting from a store holding no record for
that camera: after all N uploads the camera has exactly one CaptureRecord
(created on the first upload — it carries the id assigned then — and
overwritten in place thereafter, never duplicated or deleted), and its twin
document's history has length exactly N. -/
theorem single_entity_invariant (dist : ℤ → ℤ → ℤ → ℤ → ℤ) (radius : ℤ) (cam : String)
    (items : List (Upload × Option ClassificationResult)) (st : SysState)
    (hwf : WF st)
    (hne : items ≠ [])
    (hcam0 : camRecords st cam = [])
    (hcam : ∀ x ∈ items, x.1.camera_id = cam)
    (hgeo : ∀ x ∈ items, validGeometry x.1.lat x.1.lon = true)
    (hpair : ∀ x ∈ items, ∀ y ∈ items, dist x.1.lat x.1.lon y.1.lat y.1.lon ≤ radius) :
    ∃ recd : CaptureRecord,
      camRecords (runUploads dist radius items st) cam = [recd] ∧
      recd.id = st.nextId ∧
      ∃ t ∈ (runUploads dist radius items st).twins, t.id = recd.id ∧
        t.history.length = items.length := by
  cases items with
  | nil => exact absurd rfl hne
  | cons x items =>
    have hu_cam : x.1.camera_id = cam := hcam x (List.mem_cons_self x items)
    have hg : validGeometry x.1.lat x.1.lon = true := hgeo x (List.mem_cons_self x items)
    have hfn : findNearest dist st.records x.1.camera_id x.1.lat x.1.lon radius = none := by
      unfold findNearest
      rw [candidates_eq_filter, hu_cam]
      have hflt : st.records.filter (fun r => r.camera_id == cam) = [] := hcam0
      rw [hflt]
      rfl
    have hpost := @ingest_post_create dist radius x.2 st x.1 hg hfn
    rw [runUploads_cons, hpost]
    have hcam1 : camRecords (createState st x.1 defaultClassify) cam =
        [newRecordFor st x.1 defaultClassify] := by
      rw [camRecords_createState, hcam0, if_pos hu_cam]
      rfl
    have h2n : ∃ t ∈ (createState st x.1 defaultClassify).twins,
        t.id = (newRecordFor st x.1 defaultClassify).id :=
      ⟨newTwinFor st x.1 defaultClassify,
        List.mem_append_right _ (List.mem_singleton_self _), rfl⟩
    have h3n : ∀ t ∈ (createState st x.1 defaultClassify).twins,
        t.id = (newRecordFor st x.1 defaultClassify).id → t.history.length = 1 := by
      intro t ht hid
      rcases List.mem_append.mp ht with hl | hr
      · exact absurd hid (Nat.ne_of_lt (twin_id_lt hwf t hl))
      · rcases List.mem_singleton.mp hr with rfl
        rfl
    have hres := runUploads_maintain dist radius cam items
      (createState st x.1 defaultClassify) (newRecordFor st x.1 defaultClassify) 1
      hcam1 h2n h3n
      (fun y hy => hcam y (List.mem_cons_of_mem x hy))
      (fun y hy => hgeo y (List.mem_cons_of_mem x hy))
      (fun y hy => hpair y (List.mem_cons_of_mem x hy) x (List.mem_cons_self x items))
      (fun y hy z hz => hpair y (List.mem_cons_of_mem x hy) z (List.mem_cons_of_mem x hz))
    rcases hres with ⟨recd2, hr1, hr2, hr3, hr4⟩
    rcases hr3 with ⟨t, ht, htid⟩
    refine ⟨recd2, hr1, hr2, t, ht, htid.trans hr2.symm, ?_⟩
    have hlen := hr4 t ht htid
    rw [hlen]
    simp only [List.length_cons]
    omega

/-- Witness for C3: two within-radius uploads for camera-01 into the empty
store leave exactly one record (id 1) whose twin history has length 2. -/
theorem single_entity_invariant_witness :
    ∃ recd : CaptureRecord,
      camRecords (runUploads flatDist 10 witnessItems emptyState) "camera-01" = [recd] ∧
      recd.id = 1 ∧
      ∃ t ∈ (runUploads flatDist 10 witnessItems emptyState).twins, t.id = recd.id ∧
        t.history.length = 2 :=
  single_entity_invariant flatDist 10 "camera-01" witnessItems emptyState
    ⟨fun r hr => absurd hr (List.not_mem_nil r), rfl, List.nodup_nil⟩
    (by decide) (by decide) (by decide) (by decide) (by decide)

/-- C4.  Every successful upload performs exactly one CaptureRecord write
and exactly one history append: total twin history length grows by exactly
one, every pre-existing twin keeps its prior history entries as an
unchanged prefix, the record count grows by one exactly for CreateNew and is
unchanged for both overwrite outcomes, and over any sequence of successful
uploads the total history length grows by exactly one per upload (in
particular it never decreases). -/
theorem writer_single_write (dist : ℤ → ℤ → ℤ → ℤ → ℤ) (radius : ℤ)
    (oracle : Option ClassificationResult) (st : SysState) (up : Upload) (out : IngestOk)
    (hwf : WF st)
    (h : (ingest dist radius oracle true true st up).res = .ok out) :
    histSum (ingest dist radius oracle true true st up).post = histSum st + 1 ∧
    (∀ t ∈ st.twins, ∃ t2 ∈ (ingest dist radius oracle true true st up).post.twins,
      t2.id = t.id ∧ ∃ rest, t2.history = t.history ++ rest) ∧
    (out.decision = .createNew →
      (ingest dist radius oracle true true st up).post.records.length =
        st.records.length + 1) ∧
    (out.decision ≠ .createNew →
      (ingest dist radius oracle true true st up).post.records.length =
        st.records.length) ∧
    (∀ items : List (Upload × Option ClassificationResult),
      (∀ x ∈ items, validGeometry x.1.lat x.1.lon = true) →
      histSum (runUploads dist radius items st) = histSum st + items.length) := by
  have hg : validGeometry up.lat up.lon = true := by
    by_cases hg : validGeometry up.lat up.lon = true
    · exact hg
    · rw [ingest_geo_fail (Bool.eq_false_iff.mpr hg)] at h
      exact Except.noConfusion h
  refine ⟨ingest_histSum hwf hg, ?_, ?_, ?_,
    fun items hv => runUploads_histSum dist radius items st hwf hv⟩
  · intro t ht
    cases hn : findNearest dist st.records up.camera_id up.lat up.lon radius with
    | none =>
      rw [ingest_post_create hg hn]
      exact ⟨t, List.mem_append_left _ ht, rfl, [], (List.append_nil _).symm⟩
    | some r =>
      rw [ingest_post_overwrite hg hn]
      by_cases h0 : t.id = r.id
      · refine ⟨overwriteTwin up (classifyAt st r up oracle)
            ((classifyAt st r up oracle).result.majorChange) t, ?_, rfl,
          [mkSnapshot up], rfl⟩
        exact List.mem_map.mpr ⟨t, ht, by rw [if_pos h0]⟩
      · refine ⟨t, ?_, rfl, [], (List.append_nil _).symm⟩
        exact List.mem_map.mpr ⟨t, ht, by rw [if_neg h0]⟩
  · intro hd
    cases hn : findNearest dist st.records up.camera_id up.lat up.lon radius with
    | none =>
      rw [ingest_post_create hg hn]
      simp [createState]
    | some r =>
      exfalso
      have hres := @ingest_res_some dist radius oracle st up r hg hn
      rw [h] at hres
      have hout := Except.ok.inj hres
      rw [hout] at hd
      cases hmaj : (classifyAt st r up oracle).result.majorChange <;>
        rw [hmaj] at hd <;>
        simp [decideOutcome] at hd
  · intro hd
    cases hn : findNearest dist st.records up.camera_id up.lat up.lon radius with
    | none =>
      exfalso
      have hres := @ingest_res_none dist radius oracle st up hg hn
      rw [h] at hres
      have hout := Except.ok.inj hres
      rw [hout] at hd
      exact hd rfl
    | some r =>
      rw [ingest_post_overwrite hg hn]
      simp [overwriteState]

/-- Witness for C4: one upload into the empty store grows total history by
one and record count by one. -/
theorem writer_single_write_witness :
    histSum (ingest flatDist 10 none true true emptyState sampleUpload).post =
      histSum emptyState + 1 ∧
    (ingest flatDist 10 none true true emptyState sampleUpload).post.records.length =
      emptyState.records.length + 1 := by
  have h := writer_single_write flatDist 10 none emptyState sampleUpload
    { decision := .createNew, record_id := 1, changed := false, reason := "" }
    ⟨fun r hr => absurd hr (List.not_mem_nil r), rfl, List.nodup_nil⟩
    (ingest_res_none (by decide) (by decide))
  exact ⟨h.1, h.2.2.1 rfl⟩

/- ------------------------------------------------------------------ -/
/- Distance evaluator contract and the dashboard validation claim.     -/
/- ------------------------------------------------------------------ -/

lemma hav_nonneg (x : ℝ) : 0 ≤ hav x := by
  unfold hav
  positivity

lemma hav_neg_arg (x : ℝ) : hav (-x) = hav x := by
  unfold hav
  rw [neg_div, Real.sin_neg]
  ring

lemma haversineTerm_comm (latA lonA latB lonB : ℝ) :
    haversineTerm latA lonA latB lonB = haversineTerm latB lonB latA lonA := by
  unfold haversineTerm
  have h1 : ∀ x y : ℝ, deg2rad (x - y) = -(deg2rad (y - x)) := by
    intro x y
    unfold deg2rad
    ring
  rw [h1 latB latA, h1 lonB lonA, hav_neg_arg, hav_neg_arg,
    mul_comm (Real.cos (deg2rad latA)) (Real.cos (deg2rad latB))]

lemma haversineTerm_self (lat lon : ℝ) : haversineTerm lat lon lat lon = 0 := by
  unfold haversineTerm hav deg2rad
  simp

/-- C8 (counterexample).  The claim that the haversine distance is zero only
for identical coordinate pairs fails: the pair (0, 0) and the distinct pair
(0, 360) are at distance exactly zero (longitudes 360 degrees apart denote
the same meridian). -/
theorem distance_zero_iff_cex :
    distanceMeters 0 0 0 360 = 0 ∧ ((0 : ℝ), (0 : ℝ)) ≠ ((0 : ℝ), (360 : ℝ)) := by
  constructor
  · have h1 : haversineTerm 0 0 0 360 = 0 := by
      unfold haversineTerm hav deg2rad
      rw [show ((360 : ℝ) - 0) * (Real.pi / 180) / 2 = Real.pi by ring]
      simp [Real.sin_pi]
    unfold distanceMeters
    rw [h1, Real.sqrt_zero, Real.arcsin_zero, mul_zero]
  · intro h
    have h2 : (0 : ℝ) = 360 := congrArg Prod.snd h
    norm_num at h2

/-- C8 (amended).  `distanceMeters` is a total function on degree
coordinates computing the haversine great-circle distance on a sphere of
radius 6 371 000 m: it is non-negative, symmetric, and zero whenever the two
coordinate pairs are identical (the converse fails, see the counterexample:
distinct pairs denoting the same point on the sphere also give zero); and
`withinRadius d radiusMeters` holds iff `d ≤ radiusMeters`. -/
theorem distance_contract_amended :
    (∀ latA lonA latB lonB : ℝ, 0 ≤ distanceMeters latA lonA latB lonB) ∧
    (∀ latA lonA latB lonB : ℝ,
      distanceMeters latA lonA latB lonB = distanceMeters latB lonB latA lonA) ∧
    (∀ lat lon : ℝ, distanceMeters lat lon lat lon = 0) ∧
    (∀ d radiusMeters : ℤ, withinRadius d radiusMeters = true ↔ d ≤ radiusMeters) := by
  refine ⟨?_, ?_, ?_, ?_⟩
  · intro latA lonA latB lonB
    unfold distanceMeters
    exact mul_nonneg (by norm_num) (Real.arcsin_nonneg.mpr (Real.sqrt_nonneg _))
  · intro latA lonA latB lonB
    unfold distanceMeters
    rw [haversineTerm_comm]
  · intro lat lon
    unfold distanceMeters
    rw [haversineTerm_self, Real.sqrt_zero, Real.arcsin_zero, mul_zero]
  · intro d radiusMeters
    unfold withinRadius
    exact decide_eq_true_iff

/-- C10.  `DittoPage.handleLoad` validates its inputs before any network
activity: an empty trimmed camera id, or a trimmed image id that is empty,
non-numeric (NaN) or not strictly positive, sets the corresponding
validation error and returns with no fetch issued and every other state
field (loading flag, response panels) untouched; when both inputs are valid
it issues exactly the three fetches (state, captures, revisions) for the
trimmed camera id and parsed image id. -/
theorem handleLoad_validation (s : DittoPageState) (reply : DittoRequest → FetchReply) :
    (trimString s.cameraId = "" →
      handleLoad s reply = ({ s with error := some ("Enter camera_id") }, [])) ∧
    (trimString s.cameraId ≠ "" →
      (trimString s.imageId = "" ∨ jsIsNaN (jsNumber (trimString s.imageId)) = true ∨
        jsLeZero (jsNumber (trimString s.imageId)) = true) →
      handleLoad s reply =
        ({ s with error := some ("Enter a valid numeric image_id (DB id)") }, [])) ∧
    (trimString s.cameraId ≠ "" → trimString s.imageId ≠ "" →
      jsIsNaN (jsNumber (trimString s.imageId)) = false →
      jsLeZero (jsNumber (trimString s.imageId)) = false →
      (handleLoad s reply).2 =
        [.stateReq (trimString s.cameraId) (jsNumber (trimString s.imageId)),
         .capturesReq (trimString s.cameraId) (jsNumber (trimString s.imageId)),
         .revisionsReq (trimString s.cameraId) (jsNumber (trimString s.imageId))]) := by
  refine ⟨?_, ?_, ?_⟩
  · intro h
    unfold handleLoad
    rw [if_pos h]
  · intro h1 h2
    unfold handleLoad
    rw [if_neg h1, if_pos h2]
  · intro h1 h2 h3 h4
    unfold handleLoad
    rw [if_neg h1, if_neg (by simp [h2, h3, h4])]

/-- Witness for C10: with camera "camera-01" and image id "abc" the handler
sets the image-id validation error, clears nothing else, and issues no
fetch. -/
theorem handleLoad_validation_witness :
    handleLoad sampleDittoState sampleReply =
      ({ sampleDittoState with error := some ("Enter a valid numeric image_id (DB id)") },
        []) :=
  (handleLoad_validation sampleDittoState sampleReply).2.1 (by decide)
    (Or.inr (Or.inl (by decide)))

end Ditto
